import Mathlib

set_option maxHeartbeats 1000000

/-!
Shallow embedding of the cisco_network_tool repository (config-driven network
topology builder, validator, load estimator and device simulator) and proofs
about the claims C1-C10.

Modelling conventions, used throughout:
* IPv4 addresses and netmasks are 32-bit naturals (the Python code holds them
  as dotted-quad strings and parses them with `ipaddress`); a parse failure of
  an invalid mask is modelled by `validNetmask`.
* Python `None`-able fields are `Option`; Python truthiness of an integer
  (`x or default`) is modelled explicitly (0 and `None` are falsy).
* Python `float` thresholds (0.2, 0.6, 0.8, 1.5) are modelled as exact
  rationals; for the integer operands that reach them the float comparison
  agrees with the rational one.
* Python dicts that are built by insertion are modelled as association lists
  in insertion order.
-/

/-- Models `utils.is_same_network`'s implicit mask validation: `IPv4Network`
accepts a dotted netmask with contiguous leading ones, i.e. a number of the
form 2^32 - 2^(32-k); anything else raises and the bare `except` in
`is_same_network` turns that into `False`.  (Hostmask-shaped strings, which
`ipaddress` would also accept, are not modelled.) -/
def validNetmask (m : Nat) : Bool :=
  (List.range 33).any fun k => m == 2 ^ 32 - 2 ^ (32 - k)

/-- Embeds `utils.is_same_network(ip1, ip2, netmask)`: both addresses are
interpreted under the same (first interface's) mask and their network
addresses (bitwise and with the mask) compared.  A missing mask makes the
`IPv4Network` constructor raise, caught as `False`. -/
def is_same_network (ip1 ip2 : Nat) (netmask : Option Nat) : Bool :=
  match netmask with
  | none => false
  | some m => validNetmask m && (ip1 &&& m == ip2 &&& m)

/-- One record of the flattened `interfaces` map produced by the config
front end (see `config_parser._parse_interfaces`): owning device, interface
name, optional IPv4 address and mask, optional bandwidth, MTU, optional VLAN
id, and up/down status. -/
structure Interface where
  device : String
  iname : String
  ip_address : Option Nat
  subnet_mask : Option Nat
  bandwidth : Option Nat
  mtu : Nat
  vlan : Option Nat
  status : Bool
deriving DecidableEq

/-- Python `str.startswith` over character lists (string operations are
modelled on the underlying character list so that proofs can evaluate
them). -/
def starts_chars : List Char → List Char → Bool
  | [], _ => true
  | _ :: _, [] => false
  | n :: ns, h :: hs => n == h && starts_chars ns hs

/-- Python substring containment `needle in haystack` over character lists. -/
def has_sub (needle : List Char) : List Char → Bool
  | [] => starts_chars needle []
  | h :: hs => starts_chars needle (h :: hs) || has_sub needle hs

/-- Python `str.lower`, character by character. -/
def lower_chars (s : String) : List Char :=
  s.data.map Char.toLower

/-- Embeds `TopologyBuilder._get_device_type`: the device kind inferred from
the device name (`name_lower.startswith(...)` over the lowered characters). -/
def get_device_type (device_name : String) : String :=
  let n := lower_chars device_name
  if starts_chars "r".data n && device_name.length ≤ 3 then "router"
  else if starts_chars "switch".data n || starts_chars "sw".data n then "switch"
  else if starts_chars "pc".data n then "pc"
  else if starts_chars "server".data n then "server"
  else if starts_chars "laptop".data n then "laptop"
  else "unknown"

/-- The adjacency-kind whitelist of `TopologyBuilder._add_connections`
(the chain of `should_connect` conditions). -/
def allowed_kinds (t1 t2 : String) : Bool :=
  (t1 == "router" && t2 == "router") ||
  (t1 == "router" && t2 == "switch") ||
  (t1 == "switch" && t2 == "router") ||
  (t1 == "switch" && (t2 == "pc" || t2 == "server" || t2 == "laptop" || t2 == "unknown")) ||
  ((t1 == "pc" || t1 == "server" || t1 == "laptop" || t1 == "unknown") && t2 == "switch")

/-- The full per-pair condition of `TopologyBuilder._add_connections`: both
interfaces carry an IP, the devices differ, the same-network test passes
under the first interface's mask, and the kind pair is allowed. -/
def should_connect (int1 int2 : Interface) : Bool :=
  match int1.ip_address, int2.ip_address with
  | some ip1, some ip2 =>
      int1.device != int2.device &&
      is_same_network ip1 ip2 int1.subnet_mask &&
      allowed_kinds (get_device_type int1.device) (get_device_type int2.device)
  | _, _ => false

/-- Python `int1['bandwidth'] or 100000`: `None` and 0 are falsy, so both are
replaced by the 100000 default. -/
def bw_or_default (b : Option Nat) : Nat :=
  match b with
  | none => 100000
  | some v => if v == 0 then 100000 else v

/-- One edge of the `networkx` graph with the attributes
`TopologyBuilder._add_connections` stores on it. -/
structure EdgeData where
  dev1 : String
  dev2 : String
  bandwidth : Nat
  interface1 : String
  interface2 : String
  mtu1 : Nat
  mtu2 : Nat
  weight : ℚ
deriving DecidableEq

/-- The edge `graph.add_edge(int1['device'], int2['device'], ...)` creates:
bandwidth is the min of the two (falsy-defaulted) interface bandwidths and
the routing weight is `1.0 / link_bandwidth`. -/
def mk_edge (int1 int2 : Interface) : EdgeData :=
  let bw := min (bw_or_default int1.bandwidth) (bw_or_default int2.bandwidth)
  { dev1 := int1.device, dev2 := int2.device, bandwidth := bw,
    interface1 := int1.iname, interface2 := int2.iname,
    mtu1 := int1.mtu, mtu2 := int2.mtu, weight := 1 / (bw : ℚ) }

/-- Whether two unordered device pairs coincide (a `networkx` undirected
graph keys its edges by the unordered endpoint pair). -/
def same_pair (a1 b1 a2 b2 : String) : Bool :=
  (a1 == a2 && b1 == b2) || (a1 == b2 && b1 == a2)

/-- `graph.add_edge` on an undirected graph: at most one edge per unordered
pair, a repeated `add_edge` overwrites the stored attributes. -/
def add_edge (g : List EdgeData) (e : EdgeData) : List EdgeData :=
  e :: g.filter fun x => !same_pair x.dev1 x.dev2 e.dev1 e.dev2

/-- The inner loop of `TopologyBuilder._add_connections`: pair `int1` with
every later interface. -/
def connect_one (int1 : Interface) (rest : List Interface) (g : List EdgeData) :
    List EdgeData :=
  rest.foldl
    (fun acc int2 => if should_connect int1 int2 then add_edge acc (mk_edge int1 int2) else acc)
    g

/-- The outer loop of `TopologyBuilder._add_connections` over
`enumerate(interface_list)`: each interface is paired with all the
interfaces after it. -/
def add_connections : List Interface → List EdgeData → List EdgeData
  | [], g => g
  | int1 :: rest, g => add_connections rest (connect_one int1 rest g)

/-- The edge set `TopologyBuilder.build_topology` builds from the flattened
interface list (the nodes are added separately and do not affect edges). -/
def build_edges (interfaces : List Interface) : List EdgeData :=
  add_connections interfaces []

/-- Whether the graph holds an edge between `d1` and `d2` (in either
orientation), as `networkx.Graph.has_edge` would report. -/
def has_edge (g : List EdgeData) (d1 d2 : String) : Bool :=
  g.any fun e => same_pair e.dev1 e.dev2 d1 d2

/-- The three-tier hierarchy `TopologyBuilder._determine_hierarchy` fills. -/
structure Hierarchy where
  core : List String
  distribution : List String
  access : List String
deriving DecidableEq

/-- Degree of a device in the edge list (the graph keeps at most one edge
per unordered pair, see `add_edge`). -/
def degree (edges : List EdgeData) (d : String) : Nat :=
  (edges.filter fun e => e.dev1 == d || e.dev2 == d).length

/-- Embeds `networkx.degree_centrality`: degree divided by `n - 1`, and 1
for every node of a graph with at most one node.  Values are exact rationals
standing for the Python floats. -/
def degree_centrality (nodes : List String) (edges : List EdgeData) : List (String × ℚ) :=
  if nodes.length ≤ 1 then nodes.map fun d => (d, 1)
  else nodes.map fun d => (d, (degree edges d : ℚ) / ((nodes.length : ℚ) - 1))

/-- The `sorted(..., key=lambda x: x[1], reverse=True)` call of
`_determine_hierarchy`: a stable sort by descending centrality. -/
def ranked (nodes : List String) (edges : List EdgeData) : List (String × ℚ) :=
  (degree_centrality nodes edges).mergeSort fun a b => decide (b.2 ≤ a.2)

/-- The classification loop of `_determine_hierarchy`: position `i` goes to
core when `i < total * 0.2`, to distribution when `i < total * 0.6`, else to
access.  For the integer positions involved the float comparisons agree with
the exact rational ones, modelled as `5 * i < total` and `5 * i < 3 * total`. -/
def hier_loop (total : Nat) : Nat → List (String × ℚ) → Hierarchy
  | _, [] => { core := [], distribution := [], access := [] }
  | i, x :: rest =>
      let h := hier_loop total (i + 1) rest
      if 5 * i < total then { h with core := x.1 :: h.core }
      else if 5 * i < 3 * total then { h with distribution := x.1 :: h.distribution }
      else { h with access := x.1 :: h.access }

/-- Embeds `TopologyBuilder._determine_hierarchy`. -/
def determine_hierarchy (nodes : List String) (edges : List EdgeData) : Hierarchy :=
  hier_loop (ranked nodes edges).length 0 (ranked nodes edges)

/-- Neighbors of `d` in the undirected edge list, in edge order. -/
def adjacency (edges : List EdgeData) (d : String) : List String :=
  edges.foldr
    (fun e acc =>
      if e.dev1 == d then e.dev2 :: acc
      else if e.dev2 == d then e.dev1 :: acc
      else acc)
    []

/-- Loopless simple-path enumeration: all simple paths from `cur` to `target`
avoiding `visited`, with enough `fuel` for every simple path of the graph.
Together with the sort in `get_alternative_paths` this models
`networkx.shortest_simple_paths`, which yields the loopless simple paths
between two nodes in order of increasing length. -/
def simple_paths_from (edges : List EdgeData) (target : String) :
    Nat → String → List String → List (List String)
  | 0, cur, _ => if cur == target then [[cur]] else []
  | fuel + 1, cur, visited =>
      if cur == target then [[cur]]
      else
        ((adjacency edges cur).filter fun n => !(cur :: visited).contains n).flatMap
          fun n =>
            (simple_paths_from edges target fuel n (cur :: visited)).map fun p => cur :: p

/-- All simple paths between `s` and `t`; a simple path visits at most
`nodes.length` vertices, so that much fuel is exhaustive. -/
def all_simple_paths (nodes : List String) (edges : List EdgeData) (s t : String) :
    List (List String) :=
  simple_paths_from edges t nodes.length s []

/-- Embeds `TopologyBuilder.get_alternative_paths`: the first `k` simple
paths by non-decreasing length.  The bare `except` of the source (covering
`NodeNotFound` for an absent endpoint and `NetworkXNoPath` when no path
exists) is modelled by the empty result. -/
def get_alternative_paths (nodes : List String) (edges : List EdgeData) (s t : String)
    (k : Nat) : List (List String) :=
  if nodes.contains s && nodes.contains t then
    ((all_simple_paths nodes edges s t).mergeSort fun p q => decide (p.length ≤ q.length)).take k
  else []

/-- The counters of `NetworkDevice.stats` that the send path touches. -/
structure DeviceStats where
  packets_sent : Nat
  packets_received : Nat
  errors : Nat
deriving DecidableEq

/-- A control-plane message; only its presence matters to the counters. -/
structure SimMessage where
  mtype : String
  source : String
deriving DecidableEq

/-- The slice of a `NetworkDevice` actor's state that `broadcast_message`
and `send_message_to_neighbor` read or write: the neighbor-table keys and
the statistics counters. -/
structure ActorState where
  name : String
  neighbors : List String
  stats : DeviceStats
deriving DecidableEq

/-- Embeds `NetworkDevice.send_message_to_neighbor`: logs the send (not
modelled) and increments `packets_sent` by one. -/
def send_message_to_neighbor (s : ActorState) (_neighbor_name : String)
    (_message : SimMessage) : ActorState :=
  { s with stats := { s.stats with packets_sent := s.stats.packets_sent + 1 } }

/-- Embeds `NetworkDevice.broadcast_message`: a per-neighbor
`send_message_to_neighbor` loop followed by `packets_sent += len(neighbors)`. -/
def broadcast_message (s : ActorState) (message : SimMessage) : ActorState :=
  let s1 := s.neighbors.foldl (fun t nb => send_message_to_neighbor t nb message) s
  { s1 with stats := { s1.stats with packets_sent := s1.stats.packets_sent + s1.neighbors.length } }

/-- Insertion-ordered grouping, as a `defaultdict(list)` filled by a loop:
`group_insert m k v` appends `v` to the group of `k`, creating the group at
the end on first sight of `k`. -/
def group_insert {κ : Type} [BEq κ] (m : List (κ × List String)) (k : κ) (v : String) :
    List (κ × List String) :=
  match m with
  | [] => [(k, [v])]
  | (k', vs) :: rest =>
      if k' == k then (k', vs ++ [v]) :: rest else (k', vs) :: group_insert rest k v

/-- Lookup of a group; the empty list for an absent key. -/
def glookup {κ : Type} [BEq κ] (m : List (κ × List String)) (k : κ) : List String :=
  match m.find? (fun p => p.1 == k) with
  | some p => p.2
  | none => []

/-- The `networks` grouping of `NetworkSimulator._setup_neighbor_relationships`:
the key is the literal f-string `ip_address/subnet_mask` — the interface's own
address, not its network address — modelled as the pair (address, mask), with
which the key string is in bijection. -/
def network_groups (interfaces : List Interface) : List ((Nat × Option Nat) × List String) :=
  interfaces.foldl
    (fun m i =>
      match i.ip_address with
      | some ip => group_insert m (ip, i.subnet_mask) i.device
      | none => m)
    []

/-- Upsert of a key into a neighbor dict (a repeated key is not duplicated). -/
def neighbor_insert (ns : List String) (d : String) : List String :=
  if ns.contains d then ns else ns ++ [d]

/-- Add `nb` to the neighbor table of device `d`. -/
def tbl_update (tbl : List (String × List String)) (d nb : String) :
    List (String × List String) :=
  tbl.map fun p => if p.1 == d then (p.1, neighbor_insert p.2 nb) else p

/-- The seeding loops of `_setup_neighbor_relationships`: for every group
and every ordered pair of distinct devices of the group that both exist in
the simulator's registry, insert a direct-neighbor entry. -/
def seed_all (devnames : List String) (groups : List (List String)) :
    List (String × List String) :=
  groups.foldl
    (fun tbl nd =>
      nd.foldl
        (fun tbl2 d1 =>
          nd.foldl
            (fun tbl3 d2 =>
              if d1 != d2 && devnames.contains d1 && devnames.contains d2 then
                tbl_update tbl3 d1 d2
              else tbl3)
            tbl2)
        tbl)
    (devnames.map fun d => (d, []))

/-- Embeds `NetworkSimulator._setup_neighbor_relationships`, returning each
device's neighbor-table keys after seeding (all tables start empty when
`load_topology` has just created the actors). -/
def setup_neighbor_relationships (devnames : List String) (interfaces : List Interface) :
    List (String × List String) :=
  seed_all devnames ((network_groups interfaces).map Prod.snd)

/-- One entry of the validator's `self.issues` list.  The Python issues are
dicts with slightly varying keys; `affected_devices` is empty for the checks
that do not set it. -/
structure Issue where
  itype : String
  severity : String
  description : String
  affected_devices : List String
  recommendation : String
deriving DecidableEq

/-- One entry of the validator's `self.warnings` list. -/
structure Advisory where
  wtype : String
  severity : String
  description : String
  affected_devices : List String
  recommendation : String
deriving DecidableEq

/-- A configured routing protocol of a device; `ident` stands for the
`process_id` of OSPF or the `as_number` of BGP. -/
structure RoutingProtocol where
  protocol : String
  ident : String
deriving DecidableEq

/-- A VLAN record of a device's `vlans` dict. -/
structure VlanInfo where
  vid : Nat
  vname : String
deriving DecidableEq

/-- One device record of the parsed `devices` map (see
`config_parser.parse_device_config`); `dtype` is the `type` key. -/
structure DeviceRec where
  name : String
  dtype : String
  interfaces : List Interface
  routing_protocols : List RoutingProtocol
  vlans : List (Nat × VlanInfo)
  hostname : String
deriving DecidableEq

/-- Python's rendering of `interface.get('vlan', 'default')` inside the
f-string key: the parser always stores a `vlan` key (possibly `None`), so
the value is `None` or the VLAN number. -/
def vlan_str (v : Option Nat) : String :=
  match v with
  | none => "None"
  | some n => toString n

/-- The `ip_map` grouping of `ConfigValidator._check_duplicate_ips`: the
f-string key `ip_vlan` is modelled as the pair (address, vlan), with which
it is in bijection (neither component's rendering contains `_`). -/
def dup_step (m : List ((Nat × Option Nat) × List String)) (i : Interface) :
    List ((Nat × Option Nat) × List String) :=
  match i.ip_address with
  | some ip => group_insert m (ip, i.vlan) i.device
  | none => m

/-- The grouping loop of `_check_duplicate_ips` over the interface records. -/
def dup_groups (interfaces : List Interface) : List ((Nat × Option Nat) × List String) :=
  interfaces.foldl dup_step []

/-- Embeds `ConfigValidator._check_duplicate_ips`: one high-severity issue
per key group holding more than one interface (the source compares the
length of the device list, not the number of distinct devices). -/
def check_duplicate_ips (interfaces : List Interface) : List Issue :=
  ((dup_groups interfaces).filter fun p => decide (1 < p.2.length)).map fun p =>
    { itype := "duplicate_ip", severity := "high",
      description := "Duplicate IP " ++ toString p.1.1 ++ " in VLAN " ++ vlan_str p.1.2,
      affected_devices := p.2,
      recommendation := "Assign unique IP addresses to each interface" }

/-- Embeds `ConfigValidator._check_mtu_mismatches`. -/
def check_mtu_mismatches (gedges : List EdgeData) : List Advisory :=
  (gedges.filter fun e => decide (e.mtu1 ≠ e.mtu2)).map fun e =>
    { wtype := "mtu_mismatch", severity := "medium",
      description := "MTU mismatch between " ++ e.dev1 ++ " (" ++ toString e.mtu1 ++ ") and "
        ++ e.dev2 ++ " (" ++ toString e.mtu2 ++ ")",
      affected_devices := [e.dev1, e.dev2],
      recommendation := "Set consistent MTU value (recommend " ++ toString (max e.mtu1 e.mtu2) ++ ")" }

/-- Embeds `ConfigValidator._check_missing_components`. -/
def check_missing_components (devices : List (String × DeviceRec)) : List Advisory :=
  let device_types := devices.map fun dp => dp.2.dtype
  (if !device_types.contains "router" then
    [{ wtype := "missing_component", severity := "medium",
       description := "No routers found in configuration",
       affected_devices := [],
       recommendation := "Ensure router configurations are included" }]
  else []) ++
  (if !device_types.contains "switch" then
    [{ wtype := "missing_component", severity := "low",
       description := "No switches found in configuration",
       affected_devices := [],
       recommendation := "Consider adding switch configurations for complete topology" }]
  else [])

/-- Python `set.add` modelled in first-insertion order (the checks only use
the set's size and membership, never its iteration order). -/
def set_insert (s : List String) (x : String) : List String :=
  if s.contains x then s else s ++ [x]

/-- Insertion-ordered grouping into sets, as `defaultdict(set)`. -/
def set_group_insert (m : List (Nat × List String)) (k : Nat) (v : String) :
    List (Nat × List String) :=
  match m with
  | [] => [(k, [v])]
  | (k', vs) :: rest =>
      if k' == k then (k', set_insert vs v) :: rest else (k', vs) :: set_group_insert rest k v

/-- The `vlan_configs` grouping of `_check_vlan_consistency`: VLAN id to the
set of names seen across devices. -/
def vlan_groups (devices : List (String × DeviceRec)) : List (Nat × List String) :=
  devices.foldl
    (fun m dp => dp.2.vlans.foldl (fun m2 vp => set_group_insert m2 vp.1 vp.2.vname) m)
    []

/-- Embeds `ConfigValidator._check_vlan_consistency` (the `list(names)`
rendering inside the description is approximated by the Lean list
rendering; nothing proved depends on it). -/
def check_vlan_consistency (devices : List (String × DeviceRec)) : List Issue :=
  ((vlan_groups devices).filter fun p => decide (1 < p.2.length)).map fun p =>
    { itype := "vlan_inconsistency", severity := "medium",
      description := "VLAN " ++ toString p.1 ++ " has inconsistent names: " ++ toString p.2,
      affected_devices := [],
      recommendation := "Use consistent name for VLAN " ++ toString p.1 }

/-- Embeds `ConfigValidator._check_gateway_configuration`: the Python test
`ip_address.endswith('.1')` on the dotted rendering holds exactly when the
last octet is 1, i.e. `ip % 256 == 1`. -/
def check_gateway_configuration (devices : List (String × DeviceRec)) : List Advisory :=
  (devices.filter fun dp =>
    dp.2.dtype == "router" &&
      !(dp.2.interfaces.any fun i =>
        match i.ip_address with
        | some ip => ip % 256 == 1
        | none => false)).map fun dp =>
    { wtype := "gateway_config", severity := "low",
      description := "Router " ++ dp.1 ++ " may not have gateway interface configured",
      affected_devices := [],
      recommendation := "Verify gateway configuration on router interfaces" }

/-- Position of a node in the graph's node list. -/
def node_index (gnodes : List String) (d : String) : Nat :=
  gnodes.findIdx fun x => x == d

/-- Search for the simple cycles through `start` in the directed closure of
the undirected graph, visiting only nodes that come after `start` in node
order, so each cycle is produced once from its earliest node (both
orientations of an undirected cycle appear, as in the directed closure). -/
def cycle_paths (edges : List EdgeData) (gnodes : List String) (start : String) :
    Nat → String → List String → List (List String)
  | 0, _, _ => []
  | fuel + 1, cur, visited =>
      (adjacency edges cur).flatMap fun n =>
        if n == start then [[cur]]
        else if decide (node_index gnodes start < node_index gnodes n)
            && !visited.contains n then
          (cycle_paths edges gnodes start fuel n (n :: visited)).map fun p => cur :: p
        else []

/-- Models `networkx.simple_cycles(graph.to_directed())`: the simple cycles
of the directed closure, each enumerated once (networkx's Johnson-algorithm
ordering is not reproduced; nothing proved depends on the order). -/
def simple_cycles (gnodes : List String) (edges : List EdgeData) : List (List String) :=
  gnodes.flatMap fun s => cycle_paths edges gnodes s gnodes.length s [s]

/-- Embeds `ConfigValidator._check_network_loops`: at most the first five
cycles become warnings. -/
def check_network_loops (gnodes : List String) (gedges : List EdgeData) : List Advisory :=
  ((simple_cycles gnodes gedges).take 5).map fun cyc =>
    { wtype := "network_loop", severity := "medium",
      description := "Potential network loop detected: " ++ String.intercalate " -> " cyc,
      affected_devices := [],
      recommendation := "Implement STP or remove redundant connections" }

/-- Whether a device runs the named routing protocol. -/
def has_protocol (d : DeviceRec) (p : String) : Bool :=
  d.routing_protocols.any fun rp => rp.protocol == p

/-- Embeds `ConfigValidator._suggest_protocol_optimization` (the source also
counts OSPF devices but never uses the count). -/
def check_protocol_optimization (devices : List (String × DeviceRec)) : List Advisory :=
  let total := devices.length
  let bgp_devices := (devices.filter fun dp => has_protocol dp.2 "bgp").length
  (if decide (10 < total) && bgp_devices == 0 then
    [{ wtype := "protocol_optimization", severity := "low",
       description := "Large network detected without BGP",
       affected_devices := [],
       recommendation := "Consider implementing BGP for better scalability" }]
  else []) ++
  (if decide (total ≤ 5) && decide (0 < bgp_devices) then
    [{ wtype := "protocol_optimization", severity := "low",
       description := "BGP may be overkill for small network",
       affected_devices := [],
       recommendation := "OSPF might be more appropriate for this network size" }]
  else [])

/-- Python dict subscription `m[k]`: the value, or a raised `KeyError`
modelled in the `Except` monad. -/
def dict_get {α : Type} (m : List (String × α)) (k : String) : Except String α :=
  match m.find? (fun p => p.1 == k) with
  | some p => .ok p.2
  | none => .error ("KeyError: " ++ k)

/-- Embeds `ConfigValidator._suggest_node_aggregation`.  The chained Python
comparison `devices[node]['type'] == devices[neighbor]['type'] == 'switch'`
subscripts `devices` with both node names before comparing, so a graph node
absent from the `devices` dict raises `KeyError`, which this model
propagates in `Except`. -/
def check_node_aggregation (gnodes : List String) (gedges : List EdgeData)
    (devices : List (String × DeviceRec)) : Except String (List Advisory) :=
  gnodes.foldlM
    (fun acc node =>
      match adjacency gedges node with
      | [nb] => do
          let d1 ← dict_get devices node
          let d2 ← dict_get devices nb
          if d1.dtype == d2.dtype && d2.dtype == "switch" then
            pure (acc ++ [{ wtype := "node_aggregation", severity := "low",
                            description := "Switches " ++ node ++ " and " ++ nb
                              ++ " could be aggregated",
                            affected_devices := [],
                            recommendation := "Consider combining " ++ node ++ " and " ++ nb
                              ++ " into single switch" }])
          else pure acc
      | _ => pure acc)
    []

/-- The dict `ConfigValidator.validate_configuration` returns. -/
structure ValidationResult where
  issues : List Issue
  warnings : List Advisory
  total_issues : Nat
  total_warnings : Nat
deriving DecidableEq

/-- Embeds `ConfigValidator.validate_configuration`: the eight checks run
sequentially with no `try`/`except` around them, so an exception inside any
check propagates to the caller — modelled by the `Except` bind.  Issues and
warnings accumulate in execution order on a fresh validator. -/
def validate_configuration (devices : List (String × DeviceRec)) (interfaces : List Interface)
    (gnodes : List String) (gedges : List EdgeData) : Except String ValidationResult := do
  let i1 := check_duplicate_ips interfaces
  let w1 := check_mtu_mismatches gedges
  let w2 := check_missing_components devices
  let i2 := check_vlan_consistency devices
  let w3 := check_gateway_configuration devices
  let w4 := check_network_loops gnodes gedges
  let w5 := check_protocol_optimization devices
  let w6 ← check_node_aggregation gnodes gedges devices
  let issues := i1 ++ i2
  let warnings := w1 ++ w2 ++ w3 ++ w4 ++ w5 ++ w6
  pure { issues := issues, warnings := warnings,
         total_issues := issues.length, total_warnings := warnings.length }

/-- The shape of a traffic configuration (`LoadBalancer._generate_default_traffic`
builds one; a caller may pass any dict — only its presence matters, see
`analyze_traffic_load`). -/
structure TrafficConfig where
  endpoint_traffic : List (String × Nat)
  application_types : List (String × String × ℚ)
deriving DecidableEq

/-- Embeds `LoadBalancer._generate_default_traffic`. -/
def generate_default_traffic : TrafficConfig :=
  { endpoint_traffic :=
      [("web_server", 50000), ("database", 30000), ("user_devices", 5000),
       ("backup_server", 20000)],
    application_types :=
      [("web", "medium", 2), ("database", "high", 3 / 2), ("backup", "low", 6 / 5)] }

/-- Python `'core' in str(node).lower()`. -/
def contains_core (s : String) : Bool :=
  has_sub "core".data (lower_chars s)

/-- Python `'R' in node`: membership of the capital letter in the name. -/
def contains_r (s : String) : Bool :=
  s.data.contains 'R'

/-- Embeds `LoadBalancer._estimate_link_demand`: the traffic configuration is
accepted and ignored; the demand depends only on the two node names (the
literal substring `'R'` — the capital letter — and the case-insensitive
substring `'core'`). -/
def estimate_link_demand (node1 node2 : String) (_traffic_config : TrafficConfig) : Nat :=
  let base_demand := 10000
  let base_demand :=
    if contains_r node1 || contains_r node2 then base_demand + 20000 else base_demand
  let base_demand :=
    if contains_core node1 || contains_core node2 then base_demand + 30000 else base_demand
  base_demand

/-- One value of the `link_analysis` dict. -/
structure LinkInfo where
  bandwidth : Nat
  demand : Nat
  utilization : ℚ
  status : String
deriving DecidableEq

/-- One entry of `self.overloaded_links`. -/
structure OverloadedLink where
  link : String
  utilization : ℚ
  bandwidth : Nat
  demand : Nat
deriving DecidableEq

/-- The per-edge loop of `LoadBalancer.analyze_traffic_load` on a fresh
instance (`self.overloaded_links` starts empty): builds `link_analysis` in
edge order and appends every overloaded link.  Utilization is
`demand / bandwidth`, or 0 for zero bandwidth; the 0.8 threshold is the
exact rational 4/5. -/
def analyze_step (traffic_config : TrafficConfig)
    (acc : List (String × LinkInfo) × List OverloadedLink) (e : EdgeData) :
    List (String × LinkInfo) × List OverloadedLink :=
  let link_id := e.dev1 ++ "-" ++ e.dev2
  let estimated_demand := estimate_link_demand e.dev1 e.dev2 traffic_config
  let utilization : ℚ :=
    if 0 < e.bandwidth then (estimated_demand : ℚ) / (e.bandwidth : ℚ) else 0
  let info : LinkInfo :=
    { bandwidth := e.bandwidth, demand := estimated_demand, utilization := utilization,
      status := if 4 / 5 < utilization then "overloaded" else "normal" }
  (acc.1 ++ [(link_id, info)],
   if 4 / 5 < utilization then
     acc.2 ++ [{ link := link_id, utilization := utilization,
                 bandwidth := e.bandwidth, demand := estimated_demand }]
   else acc.2)

/-- The fold of the per-edge loop over the graph's edges. -/
def analyze_edges (gedges : List EdgeData) (traffic_config : TrafficConfig) :
    List (String × LinkInfo) × List OverloadedLink :=
  gedges.foldl (analyze_step traffic_config) ([], [])

/-- A recommendation record; each constructor carries the fields the source
writes for that type (the `qos` record holds only fixed strings). -/
inductive Recommendation where
  | load_balancing (overloaded_link : String) (utilization : ℚ)
      (alternative_paths : List (List String)) : Recommendation
  | capacity_upgrade (overloaded_link : String) (utilization : ℚ)
      (current_bandwidth : Nat) (suggested_bandwidth : Nat) : Recommendation
  | qos : Recommendation
deriving DecidableEq

/-- Embeds `LoadBalancer._generate_load_balancing_recommendations`: the link
id is split on `-` to recover the endpoints (faithful to the source, which
breaks for device names containing `-`); `int(demand * 1.5)` is the exact
`3 * demand / 2` for the integer demands involved. -/
def generate_load_balancing_recommendations (gnodes : List String) (gedges : List EdgeData)
    (overloaded_links : List OverloadedLink) : List Recommendation :=
  let recommendations := overloaded_links.foldl
    (fun acc ol =>
      let parts := ol.link.splitOn "-"
      let alt_paths := get_alternative_paths gnodes gedges (parts.getD 0 "") (parts.getD 1 "") 3
      if 1 < alt_paths.length then
        acc ++ [.load_balancing ol.link ol.utilization (alt_paths.drop 1)]
      else
        acc ++ [.capacity_upgrade ol.link ol.utilization ol.bandwidth (3 * ol.demand / 2)])
    []
  if !overloaded_links.isEmpty then recommendations ++ [.qos] else recommendations

/-- The dict `LoadBalancer.analyze_traffic_load` returns. -/
structure LoadAnalysis where
  link_analysis : List (String × LinkInfo)
  overloaded_links : List OverloadedLink
  recommendations : List Recommendation
deriving DecidableEq

/-- Embeds `LoadBalancer.analyze_traffic_load` on a fresh instance: an absent
(`None`, falsy) traffic configuration is replaced by the default profile,
stored in `self.traffic_demands` (state, not part of the return value) and
passed to the estimator, which ignores it. -/
def analyze_traffic_load (gnodes : List String) (gedges : List EdgeData)
    (traffic_config : Option TrafficConfig) : LoadAnalysis :=
  let cfg := match traffic_config with
    | none => generate_default_traffic
    | some c => c
  let res := analyze_edges gedges cfg
  { link_analysis := res.1, overloaded_links := res.2,
    recommendations := generate_load_balancing_recommendations gnodes gedges res.2 }

/-- The per-edge analysis record the loop body of `analyze_traffic_load`
computes for one edge (factored out of `analyze_edges` for the statements). -/
def link_info_of (e : EdgeData) (traffic_config : TrafficConfig) : LinkInfo :=
  let estimated_demand := estimate_link_demand e.dev1 e.dev2 traffic_config
  let utilization : ℚ :=
    if 0 < e.bandwidth then (estimated_demand : ℚ) / (e.bandwidth : ℚ) else 0
  { bandwidth := e.bandwidth, demand := estimated_demand, utilization := utilization,
    status := if 4 / 5 < utilization then "overloaded" else "normal" }

/-- The claim's edge condition for C1: some ordered pair of interfaces (the
first one earlier in the flattened interface list) belongs to the two
devices, both carry assigned IPs in the same IPv4 network under the first
interface's mask, and the device-kind pair is allowed. -/
def qualifying_pair (l : List Interface) (d1 d2 : String) : Prop :=
  ∃ pre a mid b post, l = pre ++ a :: (mid ++ b :: post) ∧
    ((a.device = d1 ∧ b.device = d2) ∨ (a.device = d2 ∧ b.device = d1)) ∧
    (∃ ip1 ip2, a.ip_address = some ip1 ∧ b.ip_address = some ip2 ∧
      is_same_network ip1 ip2 a.subnet_mask = true) ∧
    allowed_kinds (get_device_type a.device) (get_device_type b.device) = true

/-- Intermediate form of the C1 condition, phrased with `should_connect`. -/
def conn_pair (l : List Interface) (d1 d2 : String) : Prop :=
  ∃ pre a mid b post, l = pre ++ a :: (mid ++ b :: post) ∧
    should_connect a b = true ∧ same_pair a.device b.device d1 d2 = true

/-- A simple path between `s` and `t` in the graph: nonempty by its
endpoints, loop-free, with consecutive vertices adjacent. -/
def is_path_between (edges : List EdgeData) (s t : String) (p : List String) : Prop :=
  p.head? = some s ∧ p.getLast? = some t ∧ p.Nodup ∧
    p.Chain' fun a b => has_edge edges a b = true

/-- Fixture: interface `eth0` of router `R1`, 10.0.0.1/24, `bandwidth 0`. -/
def int_r1 : Interface := ⟨"R1", "eth0", some 167772161, some 4294967040, some 0, 1500, none, true⟩

/-- Fixture: interface `eth0` of router `R2`, 10.0.0.2/24, `bandwidth 0`. -/
def int_r2 : Interface := ⟨"R2", "eth0", some 167772162, some 4294967040, some 0, 1500, none, true⟩

/-- Fixture: the single edge `build_edges [int_r1, int_r2]` produces. -/
def edge_r1r2 : EdgeData := ⟨"R1", "R2", 100000, "eth0", "eth0", 1500, 1500, 1 / 100000⟩

/-- Fixture: interface `eth0` of device `A`, 10.0.0.1/24. -/
def int_a1 : Interface := ⟨"A", "eth0", some 167772161, some 4294967040, none, 1500, none, true⟩

/-- Fixture: a second interface of device `A` with the same address and no
VLAN. -/
def int_a2 : Interface := ⟨"A", "eth1", some 167772161, some 4294967040, none, 1500, none, true⟩

/-- Fixture: interface `eth0` of device `B`, 10.0.0.2/24 — the same /24
network as `int_a1` but a different address. -/
def int_b1 : Interface := ⟨"B", "eth0", some 167772162, some 4294967040, none, 1500, none, true⟩

/-- Fixture: an edge between `A` and `B` with bandwidth 1000. -/
def edge_ab : EdgeData := ⟨"A", "B", 1000, "eth0", "eth0", 1500, 1500, 1 / 1000⟩

/-- Fixture: a switch device record named `A` with no interfaces. -/
def dev_switch_a : DeviceRec := ⟨"A", "switch", [], [], [], "A"⟩

/-! ### Helper lemmas about unordered pairs and edge insertion -/

theorem same_pair_iff {a1 b1 a2 b2 : String} :
    same_pair a1 b1 a2 b2 = true ↔ (a1 = a2 ∧ b1 = b2) ∨ (a1 = b2 ∧ b1 = a2) := by
  simp [same_pair]

theorem has_edge_iff {g : List EdgeData} {d1 d2 : String} :
    has_edge g d1 d2 = true ↔ ∃ e ∈ g, same_pair e.dev1 e.dev2 d1 d2 = true := by
  simp [has_edge, List.any_eq_true]

theorem has_edge_add_edge {g : List EdgeData} {e : EdgeData} {d1 d2 : String} :
    has_edge (add_edge g e) d1 d2 = true ↔
      same_pair e.dev1 e.dev2 d1 d2 = true ∨ has_edge g d1 d2 = true := by
  simp only [has_edge_iff, add_edge]
  constructor
  · rintro ⟨x, hx, hsp⟩
    rcases List.mem_cons.mp hx with rfl | hx'
    · exact Or.inl hsp
    · exact Or.inr ⟨x, List.mem_of_mem_filter hx', hsp⟩
  · rintro (h | ⟨x, hx, hsp⟩)
    · exact ⟨e, List.mem_cons_self _ _, h⟩
    · by_cases hq : same_pair x.dev1 x.dev2 e.dev1 e.dev2 = true
      · refine ⟨e, List.mem_cons_self _ _, ?_⟩
        rw [same_pair_iff] at hq hsp ⊢
        rcases hq with ⟨h1, h2⟩ | ⟨h1, h2⟩ <;> rcases hsp with ⟨h3, h4⟩ | ⟨h3, h4⟩
        · exact Or.inl ⟨h1.symm.trans h3, h2.symm.trans h4⟩
        · exact Or.inr ⟨h1.symm.trans h3, h2.symm.trans h4⟩
        · exact Or.inr ⟨h2.symm.trans h4, h1.symm.trans h3⟩
        · exact Or.inl ⟨h2.symm.trans h4, h1.symm.trans h3⟩
      · refine ⟨x, List.mem_cons_of_mem _ (List.mem_filter.mpr ⟨hx, ?_⟩), hsp⟩
        simp [hq]

/-! ### C2: broadcast and point-to-point send counters -/

theorem foldl_send_packets (l : List String) (s : ActorState) (msg : SimMessage) :
    (l.foldl (fun t nb => send_message_to_neighbor t nb msg) s).stats.packets_sent
        = s.stats.packets_sent + l.length
    ∧ (l.foldl (fun t nb => send_message_to_neighbor t nb msg) s).neighbors = s.neighbors := by
  induction l generalizing s with
  | nil => simp
  | cons nb rest ih =>
    simp only [List.foldl_cons, List.length_cons]
    refine ⟨?_, ?_⟩
    · rw [(ih (send_message_to_neighbor s nb msg)).1]
      simp only [send_message_to_neighbor]
      omega
    · rw [(ih (send_message_to_neighbor s nb msg)).2]
      rfl

/-- C2 (amended): `broadcast_message` increments `packets_sent` by twice the
neighbor count — the per-neighbor `send_message_to_neighbor` calls add one
each and the final `+= len(self.neighbors)` adds the count again — while a
single point-to-point send increments it by exactly one. -/
theorem c2_send_counters (s : ActorState) (message : SimMessage) (neighbor_name : String) :
    (broadcast_message s message).stats.packets_sent
        = s.stats.packets_sent + 2 * s.neighbors.length
    ∧ (send_message_to_neighbor s neighbor_name message).stats.packets_sent
        = s.stats.packets_sent + 1 := by
  constructor
  · unfold broadcast_message
    have h := foldl_send_packets s.neighbors s message
    simp only [h.1, h.2]
    omega
  · simp [send_message_to_neighbor]

/-- C2 counterexample: with one neighbor, a broadcast increments the sent
counter by 2, not by the neighbor count 1 as the claim states. -/
theorem c2_counterexample :
    ¬ ((broadcast_message ⟨"R1", ["SW1"], ⟨0, 0, 0⟩⟩ ⟨"arp_request", "R1"⟩).stats.packets_sent
        = (ActorState.mk "R1" ["SW1"] ⟨0, 0, 0⟩).stats.packets_sent
          + (ActorState.mk "R1" ["SW1"] ⟨0, 0, 0⟩).neighbors.length) := by
  decide

/-! ### C10: the traffic configuration does not influence the analysis -/

theorem estimate_link_demand_const (n1 n2 : String) (c1 c2 : TrafficConfig) :
    estimate_link_demand n1 n2 c1 = estimate_link_demand n1 n2 c2 := rfl

theorem analyze_edges_const (gedges : List EdgeData) (c1 c2 : TrafficConfig) :
    analyze_edges gedges c1 = analyze_edges gedges c2 := by
  unfold analyze_edges
  congr 1

/-- C10: on a fresh load estimator the whole result of
`analyze_traffic_load` — link analysis, overloaded links and
recommendations — is the same for any two supplied traffic configurations
(including an absent one): the estimator ignores the configuration. -/
theorem c10_traffic_config_independent (gnodes : List String) (gedges : List EdgeData)
    (tc1 tc2 : Option TrafficConfig) :
    analyze_traffic_load gnodes gedges tc1 = analyze_traffic_load gnodes gedges tc2 := by
  have key : ∀ o : Option TrafficConfig,
      analyze_traffic_load gnodes gedges o = analyze_traffic_load gnodes gedges none := by
    intro o
    cases o with
    | none => rfl
    | some c =>
      simp only [analyze_traffic_load, analyze_edges_const gedges c generate_default_traffic]
  rw [key tc1, key tc2]

/-! ### C3: direct-neighbor seeding groups by interface address, not network -/

/-- C3 (code bug evaluation): devices `A` (10.0.0.1/24) and `B` (10.0.0.2/24)
lie in the same IPv4 network — `is_same_network` agrees and the network
addresses coincide — yet `_setup_neighbor_relationships` groups by the
literal `ip/mask` string, so their keys differ and both neighbor tables stay
empty, where the claim requires mutual entries. -/
theorem c3_seeding_misses_same_network :
    is_same_network 167772161 167772162 (some 4294967040) = true
    ∧ 167772161 &&& 4294967040 = 167772162 &&& 4294967040
    ∧ int_a1.subnet_mask = int_b1.subnet_mask
    ∧ setup_neighbor_relationships ["A", "B"] [int_a1, int_b1] = [("A", []), ("B", [])] := by
  refine ⟨by decide, by decide, rfl, by decide⟩

/-! ### C9: the demand heuristic and overload classification -/

theorem analyze_step_eq (tc : TrafficConfig)
    (acc : List (String × LinkInfo) × List OverloadedLink) (e : EdgeData) :
    analyze_step tc acc e
      = (acc.1 ++ [(e.dev1 ++ "-" ++ e.dev2, link_info_of e tc)],
         if 4 / 5 < (link_info_of e tc).utilization then
           acc.2 ++ [{ link := e.dev1 ++ "-" ++ e.dev2,
                       utilization := (link_info_of e tc).utilization,
                       bandwidth := e.bandwidth, demand := (link_info_of e tc).demand }]
         else acc.2) := rfl

theorem foldl_analyze_step (tc : TrafficConfig) :
    ∀ (l : List EdgeData) (acc : List (String × LinkInfo) × List OverloadedLink),
      l.foldl (analyze_step tc) acc
        = (acc.1 ++ l.map (fun e => (e.dev1 ++ "-" ++ e.dev2, link_info_of e tc)),
           acc.2 ++ ((l.filter fun e => decide (4 / 5 < (link_info_of e tc).utilization)).map
             fun e => { link := e.dev1 ++ "-" ++ e.dev2,
                        utilization := (link_info_of e tc).utilization,
                        bandwidth := e.bandwidth, demand := (link_info_of e tc).demand }))
  | [], acc => by simp
  | e :: l, acc => by
    rw [List.foldl_cons, analyze_step_eq, foldl_analyze_step tc l]
    by_cases hov : 4 / 5 < (link_info_of e tc).utilization
    · simp [hov, List.filter_cons]
    · simp [hov, List.filter_cons]

theorem analyze_edges_fst (gedges : List EdgeData) (tc : TrafficConfig) :
    (analyze_edges gedges tc).1
      = gedges.map fun e => (e.dev1 ++ "-" ++ e.dev2, link_info_of e tc) := by
  unfold analyze_edges
  rw [foldl_analyze_step]
  simp

theorem link_info_bandwidth (e : EdgeData) (tc : TrafficConfig) :
    (link_info_of e tc).bandwidth = e.bandwidth := rfl

theorem link_info_utilization (e : EdgeData) (tc : TrafficConfig) :
    (link_info_of e tc).utilization
      = if 0 < e.bandwidth then ((link_info_of e tc).demand : ℚ) / (e.bandwidth : ℚ) else 0 := rfl

theorem link_info_status (e : EdgeData) (tc : TrafficConfig) :
    (link_info_of e tc).status
      = if 4 / 5 < (link_info_of e tc).utilization then "overloaded" else "normal" := rfl

/-- C9 (amended): the demand heuristic adds 20000 exactly when either
endpoint's NAME contains the capital letter `R` (not when the device kind is
router), and 30000 exactly when a name contains `core` case-insensitively;
an edge is classified overloaded exactly when utilization exceeds 4/5, with
utilization 0 for zero bandwidth and `demand / bandwidth` otherwise. -/
theorem c9_demand_and_overload (gedges : List EdgeData) (tc : TrafficConfig) (n1 n2 : String) :
    (estimate_link_demand n1 n2 tc
        = 10000 + (if contains_r n1 || contains_r n2 then 20000 else 0)
          + (if contains_core n1 || contains_core n2 then 30000 else 0))
    ∧ ∀ p ∈ (analyze_edges gedges tc).1,
        (p.2.status = "overloaded" ↔ 4 / 5 < p.2.utilization)
        ∧ (p.2.bandwidth = 0 → p.2.utilization = 0)
        ∧ (0 < p.2.bandwidth → p.2.utilization = (p.2.demand : ℚ) / (p.2.bandwidth : ℚ)) := by
  constructor
  · by_cases h1 : (contains_r n1 || contains_r n2) = true <;>
      by_cases h2 : (contains_core n1 || contains_core n2) = true <;>
      simp [estimate_link_demand, h1, h2]
  · intro p hp
    rw [analyze_edges_fst] at hp
    obtain ⟨e, he, rfl⟩ := List.mem_map.mp hp
    dsimp only
    refine ⟨?_, ?_, ?_⟩
    · rw [link_info_status e tc]
      by_cases hc : (4 : ℚ) / 5 < (link_info_of e tc).utilization
      · rw [if_pos hc]
        simp [hc]
      · rw [if_neg hc]
        simp only [hc, iff_false]
        decide
    · intro hb
      rw [link_info_utilization e tc, link_info_bandwidth e tc] at *
      simp [hb]
    · intro hb
      rw [link_info_utilization e tc, link_info_bandwidth e tc] at *
      rw [if_pos hb]

/-- C9 counterexample: `r1` and `r2` are both of kind router, yet the code's
`'R' in name` test fails on the lowercase names, so the demand stays at the
base 10000 where the claim requires the router increment. -/
theorem c9_counterexample :
    get_device_type "r1" = "router" ∧ get_device_type "r2" = "router"
    ∧ estimate_link_demand "r1" "r2" generate_default_traffic = 10000
    ∧ (10000 : Nat) ≠ 10000 + 20000 := by
  refine ⟨by decide, by decide, by decide, by decide⟩

/-! ### Grouping lemmas and C4: the duplicate-IP check -/

theorem glookup_cons {κ : Type} [BEq κ] (a : κ) (b : List String)
    (m : List (κ × List String)) (q : κ) :
    glookup ((a, b) :: m) q = if a == q then b else glookup m q := by
  by_cases h : (a == q) = true
  · simp [glookup, List.find?_cons_of_pos, h]
  · rw [Bool.not_eq_true] at h
    simp [glookup, List.find?_cons_of_neg, h]

theorem glookup_group_insert {κ : Type} [BEq κ] [LawfulBEq κ] [DecidableEq κ]
    (m : List (κ × List String)) (k : κ) (v : String) (q : κ) :
    glookup (group_insert m k v) q = if q = k then glookup m q ++ [v] else glookup m q := by
  induction m with
  | nil =>
    by_cases hq : q = k
    · subst hq
      simp [group_insert, glookup_cons, glookup]
    · have h1 : (k == q) = false := by
        simpa using fun h => hq h.symm
      simp [group_insert, glookup_cons, h1, hq, glookup]
  | cons p m' ih =>
    obtain ⟨k0, vs0⟩ := p
    by_cases h0 : (k0 == k) = true
    · have hk0 : k0 = k := by simpa using h0
      subst hk0
      rw [show group_insert ((k0, vs0) :: m') k0 v = (k0, vs0 ++ [v]) :: m' from by
        simp [group_insert]]
      by_cases hq : q = k0
      · subst hq
        simp [glookup_cons]
      · have h1 : (q == k0) = false := by simpa using hq
        have h2 : (k0 == q) = false := by
          simpa using fun h => hq h.symm
        simp [glookup_cons, h1, h2, hq]
    · have hk0 : k0 ≠ k := by simpa using h0
      rw [show group_insert ((k0, vs0) :: m') k v = (k0, vs0) :: group_insert m' k v from by
        simp [group_insert, h0]]
      by_cases hq : q = k0
      · subst hq
        have h2 : ¬ q = k := fun h => hk0 (h ▸ rfl)
        simp [glookup_cons, h2]
      · have h1 : (k0 == q) = false := by
          simpa using fun h => hq h.symm
        simp [glookup_cons, h1, ih]

theorem keys_group_insert {κ : Type} [BEq κ] [LawfulBEq κ]
    (m : List (κ × List String)) (k : κ) (v : String) :
    (group_insert m k v).map Prod.fst
      = if k ∈ m.map Prod.fst then m.map Prod.fst else m.map Prod.fst ++ [k] := by
  induction m with
  | nil => simp [group_insert]
  | cons p m' ih =>
    obtain ⟨k0, vs0⟩ := p
    by_cases h0 : (k0 == k) = true
    · have hk0 : k0 = k := by simpa using h0
      subst hk0
      simp [group_insert]
    · have hk0 : k0 ≠ k := by simpa using h0
      have hne : k ≠ k0 := fun h => hk0 h.symm
      rw [show group_insert ((k0, vs0) :: m') k v = (k0, vs0) :: group_insert m' k v from by
        simp [group_insert, h0]]
      simp only [List.map_cons, ih, List.mem_cons]
      by_cases hmem : k ∈ m'.map Prod.fst
      · simp [hmem]
      · simp [hmem, hne]

theorem keys_nodup_group_insert {κ : Type} [BEq κ] [LawfulBEq κ]
    (m : List (κ × List String)) (k : κ) (v : String)
    (h : (m.map Prod.fst).Nodup) : ((group_insert m k v).map Prod.fst).Nodup := by
  rw [keys_group_insert]
  by_cases hmem : k ∈ m.map Prod.fst
  · simpa [hmem] using h
  · simp only [hmem, if_false]
    rw [List.nodup_append]
    refine ⟨h, List.nodup_singleton k, ?_⟩
    simpa [List.disjoint_singleton] using hmem

theorem glookup_mem {κ : Type} [BEq κ] [LawfulBEq κ]
    (m : List (κ × List String)) (k : κ) (h : glookup m k ≠ []) :
    (k, glookup m k) ∈ m := by
  unfold glookup at *
  cases hf : m.find? (fun p => p.1 == k) with
  | none => rw [hf] at h; simp at h
  | some p =>
    have hm := List.mem_of_find?_eq_some hf
    have hk : p.1 = k := by simpa using List.find?_some hf
    show (k, p.2) ∈ m
    rw [← hk]
    simpa using hm

theorem glookup_dup_step_fold :
    ∀ (l : List Interface) (m : List ((Nat × Option Nat) × List String)) (ip : Nat)
      (vl : Option Nat),
      glookup (l.foldl dup_step m) (ip, vl)
        = glookup m (ip, vl)
          ++ (l.filter fun i => i.ip_address == some ip && i.vlan == vl).map fun i => i.device
  | [], m, ip, vl => by simp
  | i :: l, m, ip, vl => by
    rw [List.foldl_cons, glookup_dup_step_fold l]
    cases hip : i.ip_address with
    | none =>
      have hfc : (i.ip_address == some ip && i.vlan == vl) = false := by
        simp [hip]
      simp [dup_step, hip, List.filter_cons, hfc]
    | some ip0 =>
      rw [show dup_step m i = group_insert m (ip0, i.vlan) i.device from by
        simp [dup_step, hip]]
      rw [glookup_group_insert]
      by_cases hkey : (ip, vl) = (ip0, i.vlan)
      · rw [Prod.ext_iff] at hkey
        obtain ⟨h1, h2⟩ := hkey
        dsimp only at h1 h2
        subst h1
        subst h2
        have hfc : (i.ip_address == some ip && i.vlan == i.vlan) = true := by
          simp [hip]
        simp [List.filter_cons, hfc, hip]
      · have hfc : (i.ip_address == some ip && i.vlan == vl) = false := by
          rw [Bool.eq_false_iff]
          intro hcontra
          rw [Bool.and_eq_true] at hcontra
          obtain ⟨hc1, hc2⟩ := hcontra
          rw [hip] at hc1
          have hip1 : ip0 = ip := by simpa using hc1
          have hvl : i.vlan = vl := by simpa using hc2
          exact hkey (by simp [hip1, hvl])
        simp [hkey, List.filter_cons, hfc]

theorem dup_groups_glookup (l : List Interface) (ip : Nat) (vl : Option Nat) :
    glookup (dup_groups l) (ip, vl)
      = (l.filter fun i => i.ip_address == some ip && i.vlan == vl).map fun i => i.device := by
  unfold dup_groups
  rw [glookup_dup_step_fold]
  simp [glookup]

theorem dup_groups_keys_nodup (l : List Interface) :
    ((dup_groups l).map Prod.fst).Nodup := by
  unfold dup_groups
  suffices h : ∀ (l : List Interface) (m : List ((Nat × Option Nat) × List String)),
      (m.map Prod.fst).Nodup → ((l.foldl dup_step m).map Prod.fst).Nodup by
    exact h l [] (by simp)
  intro l
  induction l with
  | nil => intro m hm; simpa using hm
  | cons i l ih =>
    intro m hm
    rw [List.foldl_cons]
    apply ih
    cases hip : i.ip_address with
    | none => simpa [dup_step, hip] using hm
    | some ip0 =>
      rw [show dup_step m i = group_insert m (ip0, i.vlan) i.device from by
        simp [dup_step, hip]]
      exact keys_nodup_group_insert m _ _ hm

/-- C4 (amended): the duplicate-IP check groups by the (IP, VLAN) key — two
interfaces with the same IP but different VLANs never share a group — and
emits exactly one high-severity issue for a group (the keys are pairwise
distinct and issues map one-to-one onto the qualifying groups) if and only
if the group contains MORE THAN ONE INTERFACE; the owning devices need not
be distinct. -/
theorem c4_duplicate_ip_check (l : List Interface) :
    ((dup_groups l).map Prod.fst).Nodup
    ∧ (∀ (ip : Nat) (vl : Option Nat),
        glookup (dup_groups l) (ip, vl)
          = (l.filter fun i => i.ip_address == some ip && i.vlan == vl).map fun i => i.device)
    ∧ check_duplicate_ips l
        = ((dup_groups l).filter fun p => decide (1 < p.2.length)).map (fun p =>
            { itype := "duplicate_ip", severity := "high",
              description := "Duplicate IP " ++ toString p.1.1 ++ " in VLAN " ++ vlan_str p.1.2,
              affected_devices := p.2,
              recommendation := "Assign unique IP addresses to each interface" })
    ∧ (∀ (ip : Nat) (vl : Option Nat),
        1 < ((l.filter fun i => i.ip_address == some ip && i.vlan == vl).map
            fun i => i.device).length ↔
          ∃ iss ∈ check_duplicate_ips l, iss.severity = "high" ∧
            iss.affected_devices
              = (l.filter fun i => i.ip_address == some ip && i.vlan == vl).map
                  fun i => i.device) := by
  refine ⟨dup_groups_keys_nodup l, fun ip vl => dup_groups_glookup l ip vl, rfl, ?_⟩
  intro ip vl
  constructor
  · intro hlen
    have hg : glookup (dup_groups l) (ip, vl)
        = (l.filter fun i => i.ip_address == some ip && i.vlan == vl).map fun i => i.device :=
      dup_groups_glookup l ip vl
    have hne : glookup (dup_groups l) (ip, vl) ≠ [] := by
      rw [hg]
      intro hnil
      rw [hnil] at hlen
      simp at hlen
    have hmem : ((ip, vl), glookup (dup_groups l) (ip, vl)) ∈ dup_groups l :=
      glookup_mem _ _ hne
    refine ⟨_, List.mem_map.mpr ⟨((ip, vl), glookup (dup_groups l) (ip, vl)),
      List.mem_filter.mpr ⟨hmem, by rw [hg]; simpa using hlen⟩, rfl⟩, rfl, by simp [hg]⟩
  · rintro ⟨iss, hiss, hsev, haff⟩
    unfold check_duplicate_ips at hiss
    obtain ⟨p, hp, rfl⟩ := List.mem_map.mp hiss
    obtain ⟨hpmem, hplen⟩ := List.mem_filter.mp hp
    have : 1 < p.2.length := by simpa using hplen
    have haff' : p.2 = (l.filter fun i => i.ip_address == some ip && i.vlan == vl).map
        fun i => i.device := haff
    rw [← haff']
    exact this

/-- C4 counterexample: a single device `A` with two interfaces carrying the
same address and no VLAN — one owning device only — still produces a
duplicate-IP issue, where the claim requires more than one distinct owning
device for an issue. -/
theorem c4_counterexample :
    (∀ i ∈ [int_a1, int_a2], i.device = "A")
    ∧ check_duplicate_ips [int_a1, int_a2] ≠ [] := by
  refine ⟨by decide, by decide⟩

/-! ### C5: a failing check aborts the whole validation -/

/-- C5 (amended): `validate_configuration` has no per-check exception
handling: when the node-aggregation check (the last of the battery) raises,
the exception propagates to the caller and no structured result is
returned. -/
theorem c5_check_failure_propagates (devices : List (String × DeviceRec))
    (interfaces : List Interface) (gnodes : List String) (gedges : List EdgeData)
    (e : String) (h : check_node_aggregation gnodes gedges devices = .error e) :
    validate_configuration devices interfaces gnodes gedges = .error e := by
  simp only [validate_configuration, h]
  rfl

/-- C5 witness: a router-less record set whose graph names a device `B`
missing from the device dict; the aggregation check raises `KeyError: B`
and `validate_configuration` returns that error. -/
theorem c5_witness :
    check_node_aggregation ["A", "B"] [edge_ab] [("A", dev_switch_a)] = .error "KeyError: B"
    ∧ validate_configuration [("A", dev_switch_a)] [] ["A", "B"] [edge_ab]
        = .error "KeyError: B" :=
  ⟨rfl, c5_check_failure_propagates [("A", dev_switch_a)] [] ["A", "B"] [edge_ab]
    "KeyError: B" rfl⟩

/-- C5 counterexample: with an empty device dict and a graph edge `A - B`,
the node-aggregation check raises `KeyError: A`; `validate_configuration`
propagates the exception instead of returning the other checks' issues and
warnings, contradicting the claim that a check failure is caught. -/
theorem c5_counterexample :
    check_node_aggregation ["A", "B"] [edge_ab] [] = .error "KeyError: A"
    ∧ validate_configuration [] [] ["A", "B"] [edge_ab] = .error "KeyError: A"
    ∧ ∀ r : ValidationResult, validate_configuration [] [] ["A", "B"] [edge_ab] ≠ .ok r := by
  refine ⟨rfl, rfl, ?_⟩
  intro r h
  rw [show validate_configuration [] [] ["A", "B"] [edge_ab] = .error "KeyError: A" from rfl]
    at h
  exact Except.noConfusion h

/-! ### C7: edge bandwidth and weight -/

theorem mem_add_edge {g : List EdgeData} {e x : EdgeData} (h : x ∈ add_edge g e) :
    x = e ∨ x ∈ g := by
  rcases List.mem_cons.mp h with rfl | h'
  · exact Or.inl rfl
  · exact Or.inr (List.mem_of_mem_filter h')

theorem mem_connect_one {a : Interface} {rest : List Interface} {g : List EdgeData}
    {x : EdgeData} :
    x ∈ connect_one a rest g → x ∈ g ∨ ∃ b ∈ rest, should_connect a b = true ∧ x = mk_edge a b := by
  induction rest generalizing g with
  | nil => exact fun h => Or.inl h
  | cons b bs ih =>
    intro h
    rw [show connect_one a (b :: bs) g
        = connect_one a bs (if should_connect a b then add_edge g (mk_edge a b) else g) from by
      simp [connect_one]] at h
    rcases ih h with h' | ⟨b', hb', hsc, rfl⟩
    · by_cases hc : should_connect a b = true
      · rw [if_pos hc] at h'
        rcases mem_add_edge h' with rfl | hg
        · exact Or.inr ⟨b, List.mem_cons_self _ _, hc, rfl⟩
        · exact Or.inl hg
      · rw [if_neg hc] at h'
        exact Or.inl h'
    · exact Or.inr ⟨b', List.mem_cons_of_mem _ hb', hsc, rfl⟩

theorem mem_add_connections : ∀ {l : List Interface} {g : List EdgeData} {x : EdgeData},
    x ∈ add_connections l g →
      x ∈ g ∨ ∃ a ∈ l, ∃ b ∈ l, should_connect a b = true ∧ x = mk_edge a b
  | [], _, _, h => Or.inl h
  | a :: rest, g, x, h => by
    rw [add_connections] at h
    rcases mem_add_connections h with h' | ⟨a', ha', b', hb', hsc, rfl⟩
    · rcases mem_connect_one h' with hg | ⟨b, hb, hsc, rfl⟩
      · exact Or.inl hg
      · exact Or.inr ⟨a, List.mem_cons_self _ _, b, List.mem_cons_of_mem _ hb, hsc, rfl⟩
    · exact Or.inr ⟨a', List.mem_cons_of_mem _ ha', b', List.mem_cons_of_mem _ hb', hsc, rfl⟩

/-- C7 (amended): every stored edge comes from a qualifying interface pair
of the input; its bandwidth is the min of the two interface bandwidths
after replacing an UNSET OR ZERO bandwidth (Python falsiness) by 100000,
and its routing weight is `1 / bandwidth`. -/
theorem c7_edge_bandwidth (l : List Interface) :
    ∀ e ∈ build_edges l, ∃ a ∈ l, ∃ b ∈ l, should_connect a b = true
      ∧ e.interface1 = a.iname ∧ e.interface2 = b.iname
      ∧ e.bandwidth = min (bw_or_default a.bandwidth) (bw_or_default b.bandwidth)
      ∧ e.weight = 1 / (e.bandwidth : ℚ) := by
  intro e he
  rcases mem_add_connections he with h | ⟨a, ha, b, hb, hsc, rfl⟩
  · simp at h
  · exact ⟨a, ha, b, hb, hsc, rfl, rfl, rfl, rfl⟩

/-- C7 witness: the router pair fixture; the single built edge carries
bandwidth 100000 (both `bandwidth 0` interfaces defaulted) and weight
1/100000. -/
theorem c7_witness :
    edge_r1r2 ∈ build_edges [int_r1, int_r2]
    ∧ ∃ a ∈ [int_r1, int_r2], ∃ b ∈ [int_r1, int_r2], should_connect a b = true
        ∧ edge_r1r2.interface1 = a.iname ∧ edge_r1r2.interface2 = b.iname
        ∧ edge_r1r2.bandwidth = min (bw_or_default a.bandwidth) (bw_or_default b.bandwidth)
        ∧ edge_r1r2.weight = 1 / (edge_r1r2.bandwidth : ℚ) := by
  have hmem : edge_r1r2 ∈ build_edges [int_r1, int_r2] := by
    rw [show build_edges [int_r1, int_r2] = [edge_r1r2] from rfl]
    exact List.mem_singleton_self _
  exact ⟨hmem, c7_edge_bandwidth [int_r1, int_r2] edge_r1r2 hmem⟩

/-- C7 counterexample: both interface records carry `bandwidth 0` — set,
not unset — so per the claim the stored minimum would be 0; the code's
Python-falsy substitution stores 100000 instead. -/
theorem c7_counterexample :
    int_r1.bandwidth = some 0 ∧ int_r2.bandwidth = some 0
    ∧ (build_edges [int_r1, int_r2]).map (fun e => e.bandwidth) = [100000]
    ∧ min (Option.getD int_r1.bandwidth 100000) (Option.getD int_r2.bandwidth 100000) = 0
    ∧ (100000 : Nat) ≠ 0 := by
  refine ⟨rfl, rfl, by decide, by decide, by decide⟩

/-! ### C1: the edge-existence invariant of the topology builder -/

theorem has_edge_connect_one {a : Interface} {rest : List Interface} {g : List EdgeData}
    {d1 d2 : String} :
    has_edge (connect_one a rest g) d1 d2 = true ↔
      (∃ b ∈ rest, should_connect a b = true ∧ same_pair a.device b.device d1 d2 = true)
        ∨ has_edge g d1 d2 = true := by
  induction rest generalizing g with
  | nil => simp [connect_one]
  | cons b bs ih =>
    rw [show connect_one a (b :: bs) g
        = connect_one a bs (if should_connect a b then add_edge g (mk_edge a b) else g) from by
      simp [connect_one]]
    rw [ih]
    by_cases hc : should_connect a b = true
    · rw [if_pos hc, has_edge_add_edge]
      have hdev : (mk_edge a b).dev1 = a.device ∧ (mk_edge a b).dev2 = b.device := ⟨rfl, rfl⟩
      constructor
      · rintro (h | hsp | hg)
        · obtain ⟨b', hb', hsc', hsp'⟩ := h
          exact Or.inl ⟨b', List.mem_cons_of_mem _ hb', hsc', hsp'⟩
        · exact Or.inl ⟨b, List.mem_cons_self _ _, hc, by
            rw [hdev.1, hdev.2] at hsp
            exact hsp⟩
        · exact Or.inr hg
      · rintro (⟨b', hb', hsc', hsp'⟩ | hg)
        · rcases List.mem_cons.mp hb' with rfl | hb''
          · exact Or.inr (Or.inl (by rw [hdev.1, hdev.2]; exact hsp'))
          · exact Or.inl ⟨b', hb'', hsc', hsp'⟩
        · exact Or.inr (Or.inr hg)
    · rw [if_neg hc]
      constructor
      · rintro (h | hg)
        · obtain ⟨b', hb', hsc', hsp'⟩ := h
          exact Or.inl ⟨b', List.mem_cons_of_mem _ hb', hsc', hsp'⟩
        · exact Or.inr hg
      · rintro (⟨b', hb', hsc', hsp'⟩ | hg)
        · rcases List.mem_cons.mp hb' with rfl | hb''
          · exact absurd hsc' hc
          · exact Or.inl ⟨b', hb'', hsc', hsp'⟩
        · exact Or.inr hg

theorem conn_pair_nil {d1 d2 : String} : ¬ conn_pair [] d1 d2 := by
  rintro ⟨pre, a, mid, b, post, h, -, -⟩
  cases pre <;> simp_all

theorem conn_pair_cons {a : Interface} {l : List Interface} {d1 d2 : String} :
    conn_pair (a :: l) d1 d2 ↔
      (∃ b ∈ l, should_connect a b = true ∧ same_pair a.device b.device d1 d2 = true)
        ∨ conn_pair l d1 d2 := by
  constructor
  · rintro ⟨pre, a', mid, b, post, hdec, hsc, hsp⟩
    cases pre with
    | nil =>
      simp only [List.nil_append, List.cons.injEq] at hdec
      obtain ⟨rfl, rfl⟩ := hdec
      exact Or.inl ⟨b, by simp, hsc, hsp⟩
    | cons x pre' =>
      simp only [List.cons_append, List.cons.injEq] at hdec
      obtain ⟨rfl, rfl⟩ := hdec
      exact Or.inr ⟨pre', a', mid, b, post, rfl, hsc, hsp⟩
  · rintro (⟨b, hb, hsc, hsp⟩ | ⟨pre, a', mid, b, post, hdec, hsc, hsp⟩)
    · obtain ⟨mid, post, rfl⟩ := List.append_of_mem hb
      exact ⟨[], a, mid, b, post, rfl, hsc, hsp⟩
    · exact ⟨a :: pre, a', mid, b, post, by rw [hdec]; rfl, hsc, hsp⟩

theorem has_edge_add_connections {d1 d2 : String} :
    ∀ (l : List Interface) (g : List EdgeData),
      has_edge (add_connections l g) d1 d2 = true ↔
        conn_pair l d1 d2 ∨ has_edge g d1 d2 = true
  | [], g => by
    rw [add_connections]
    simp [conn_pair_nil]
  | a :: rest, g => by
    rw [add_connections, has_edge_add_connections rest, has_edge_connect_one, conn_pair_cons]
    constructor
    · rintro (h1 | h2 | h3)
      · exact Or.inl (Or.inr h1)
      · exact Or.inl (Or.inl h2)
      · exact Or.inr h3
    · rintro ((h2 | h1) | h3)
      · exact Or.inr (Or.inl h2)
      · exact Or.inl h1
      · exact Or.inr (Or.inr h3)

theorem should_connect_iff {a b : Interface} :
    should_connect a b = true ↔
      a.device ≠ b.device
      ∧ (∃ ip1 ip2, a.ip_address = some ip1 ∧ b.ip_address = some ip2 ∧
          is_same_network ip1 ip2 a.subnet_mask = true)
      ∧ allowed_kinds (get_device_type a.device) (get_device_type b.device) = true := by
  cases ha : a.ip_address with
  | none => simp [should_connect, ha]
  | some ip1 =>
    cases hb : b.ip_address with
    | none => simp [should_connect, ha, hb]
    | some ip2 =>
      simp only [should_connect, ha, hb, Bool.and_eq_true, bne_iff_ne]
      constructor
      · rintro ⟨⟨hdev, hnet⟩, hkinds⟩
        exact ⟨hdev, ⟨ip1, ip2, rfl, rfl, hnet⟩, hkinds⟩
      · rintro ⟨hdev, ⟨ip1', ip2', h1, h2, hnet⟩, hkinds⟩
        cases h1
        cases h2
        exact ⟨⟨hdev, hnet⟩, hkinds⟩

theorem conn_pair_iff_qualifying {l : List Interface} {d1 d2 : String} (h : d1 ≠ d2) :
    conn_pair l d1 d2 ↔ qualifying_pair l d1 d2 := by
  constructor
  · rintro ⟨pre, a, mid, b, post, hdec, hsc, hsp⟩
    rw [should_connect_iff] at hsc
    rw [same_pair_iff] at hsp
    exact ⟨pre, a, mid, b, post, hdec, hsp, hsc.2.1, hsc.2.2⟩
  · rintro ⟨pre, a, mid, b, post, hdec, hdev, hips, hkinds⟩
    refine ⟨pre, a, mid, b, post, hdec, ?_, ?_⟩
    · rw [should_connect_iff]
      refine ⟨?_, hips, hkinds⟩
      rcases hdev with ⟨h1, h2⟩ | ⟨h1, h2⟩
      · rw [h1, h2]; exact h
      · rw [h1, h2]; exact fun hh => h hh.symm
    · rw [same_pair_iff]
      tauto

theorem no_self_loop_build_edges (l : List Interface) :
    ∀ e ∈ build_edges l, e.dev1 ≠ e.dev2 := by
  intro e he
  rcases mem_add_connections he with h | ⟨a, -, b, -, hsc, rfl⟩
  · simp at h
  · rw [should_connect_iff] at hsc
    exact hsc.1

theorem distinct_pairs_add_edge {g : List EdgeData} {e : EdgeData}
    (h : g.Pairwise fun e1 e2 => same_pair e1.dev1 e1.dev2 e2.dev1 e2.dev2 = false) :
    (add_edge g e).Pairwise fun e1 e2 => same_pair e1.dev1 e1.dev2 e2.dev1 e2.dev2 = false := by
  rw [add_edge, List.pairwise_cons]
  refine ⟨?_, h.sublist (List.filter_sublist g)⟩
  intro x hx
  have hfx := (List.mem_filter.mp hx).2
  rw [Bool.not_eq_eq_eq_not, Bool.not_true] at hfx
  rw [← Bool.not_eq_true, same_pair_iff] at hfx ⊢
  intro hc
  exact hfx (by tauto)

theorem distinct_pairs_connect_one {a : Interface} {rest : List Interface} {g : List EdgeData}
    (h : g.Pairwise fun e1 e2 => same_pair e1.dev1 e1.dev2 e2.dev1 e2.dev2 = false) :
    (connect_one a rest g).Pairwise
      fun e1 e2 => same_pair e1.dev1 e1.dev2 e2.dev1 e2.dev2 = false := by
  induction rest generalizing g with
  | nil => exact h
  | cons b bs ih =>
    rw [show connect_one a (b :: bs) g
        = connect_one a bs (if should_connect a b then add_edge g (mk_edge a b) else g) from by
      simp [connect_one]]
    apply ih
    by_cases hc : should_connect a b = true
    · rw [if_pos hc]
      exact distinct_pairs_add_edge h
    · rw [if_neg hc]
      exact h

theorem distinct_pairs_add_connections :
    ∀ (l : List Interface) (g : List EdgeData),
      (g.Pairwise fun e1 e2 => same_pair e1.dev1 e1.dev2 e2.dev1 e2.dev2 = false) →
      (add_connections l g).Pairwise
        fun e1 e2 => same_pair e1.dev1 e1.dev2 e2.dev1 e2.dev2 = false
  | [], g, h => h
  | a :: rest, g, h => by
    rw [add_connections]
    exact distinct_pairs_add_connections rest _ (distinct_pairs_connect_one h)

/-- C1: in the built topology an edge between two distinct devices exists
iff some ordered interface pair of theirs (first one earlier in the list)
has assigned IPs in the same IPv4 network under the first interface's mask
and the device-kind pair is allowed; the graph has no self-loops and at
most one edge per unordered device pair. -/
theorem c1_topology_edges (l : List Interface) :
    (∀ d1 d2 : String, d1 ≠ d2 →
        (has_edge (build_edges l) d1 d2 = true ↔ qualifying_pair l d1 d2))
    ∧ (∀ e ∈ build_edges l, e.dev1 ≠ e.dev2)
    ∧ (build_edges l).Pairwise
        fun e1 e2 => same_pair e1.dev1 e1.dev2 e2.dev1 e2.dev2 = false := by
  refine ⟨?_, no_self_loop_build_edges l, ?_⟩
  · intro d1 d2 hne
    rw [build_edges, has_edge_add_connections, conn_pair_iff_qualifying hne]
    simp [has_edge]
  · exact distinct_pairs_add_connections l [] (by simp)

/-- C1 witness: the router pair fixture produces the `R1 - R2` edge, and the
qualifying pair is recovered from the iff. -/
theorem c1_witness :
    has_edge (build_edges [int_r1, int_r2]) "R1" "R2" = true
    ∧ qualifying_pair [int_r1, int_r2] "R1" "R2" := by
  have h := (c1_topology_edges [int_r1, int_r2]).1 "R1" "R2" (by decide)
  have hq : qualifying_pair [int_r1, int_r2] "R1" "R2" :=
    ⟨[], int_r1, [], int_r2, [], rfl, Or.inl ⟨rfl, rfl⟩,
      ⟨167772161, 167772162, rfl, rfl, by decide⟩, by decide⟩
  exact ⟨h.mpr hq, hq⟩

/-! ### C6: the hierarchy partition -/

theorem hier_loop_spec (total : Nat) :
    ∀ (l : List (String × ℚ)) (i : Nat),
      (hier_loop total i l).core = (l.take ((total + 4) / 5 - i)).map Prod.fst
      ∧ (hier_loop total i l).distribution
          = ((l.take ((3 * total + 4) / 5 - i)).drop ((total + 4) / 5 - i)).map Prod.fst
      ∧ (hier_loop total i l).access = (l.drop ((3 * total + 4) / 5 - i)).map Prod.fst
  | [], i => by simp [hier_loop]
  | x :: rest, i => by
    obtain ⟨ihc, ihd, iha⟩ := hier_loop_spec total rest (i + 1)
    by_cases h1 : 5 * i < total
    · have e1 : (total + 4) / 5 - i = ((total + 4) / 5 - (i + 1)) + 1 := by omega
      have e2 : (3 * total + 4) / 5 - i = ((3 * total + 4) / 5 - (i + 1)) + 1 := by omega
      simp only [hier_loop, if_pos h1]
      refine ⟨?_, ?_, ?_⟩
      · show x.1 :: (hier_loop total (i + 1) rest).core = _
        rw [ihc, e1, List.take_succ_cons, List.map_cons]
      · show (hier_loop total (i + 1) rest).distribution = _
        rw [ihd, e1, e2, List.take_succ_cons, List.drop_succ_cons]
      · show (hier_loop total (i + 1) rest).access = _
        rw [iha, e2, List.drop_succ_cons]
    · have e1 : (total + 4) / 5 - i = 0 := by omega
      have e1' : (total + 4) / 5 - (i + 1) = 0 := by omega
      by_cases h2 : 5 * i < 3 * total
      · have e2 : (3 * total + 4) / 5 - i = ((3 * total + 4) / 5 - (i + 1)) + 1 := by omega
        simp only [hier_loop, if_neg h1, if_pos h2]
        refine ⟨?_, ?_, ?_⟩
        · show (hier_loop total (i + 1) rest).core = _
          rw [ihc, e1, e1', List.take_zero, List.take_zero, List.map_nil]
        · show x.1 :: (hier_loop total (i + 1) rest).distribution = _
          rw [ihd, e1, e1', e2, List.take_succ_cons, List.drop_zero, List.drop_zero,
            List.map_cons]
        · show (hier_loop total (i + 1) rest).access = _
          rw [iha, e2, List.drop_succ_cons]
      · have e2 : (3 * total + 4) / 5 - i = 0 := by omega
        have e2' : (3 * total + 4) / 5 - (i + 1) = 0 := by omega
        simp only [hier_loop, if_neg h1, if_neg h2]
        refine ⟨?_, ?_, ?_⟩
        · show (hier_loop total (i + 1) rest).core = _
          rw [ihc, e1, e1', List.take_zero, List.take_zero, List.map_nil]
        · show (hier_loop total (i + 1) rest).distribution = _
          simp [ihd, e1, e1', e2, e2']
        · show x.1 :: (hier_loop total (i + 1) rest).access = _
          rw [iha, e2, e2', List.drop_zero, List.drop_zero, List.map_cons]

theorem length_ranked (nodes : List String) (edges : List EdgeData) :
    (ranked nodes edges).length = nodes.length := by
  rw [ranked, List.length_mergeSort]
  unfold degree_centrality
  split <;> simp

theorem map_fst_centrality (nodes : List String) (edges : List EdgeData) :
    (degree_centrality nodes edges).map Prod.fst = nodes := by
  unfold degree_centrality
  split <;> (rw [List.map_map]; exact List.map_id _)

theorem ranked_perm (nodes : List String) (edges : List EdgeData) :
    ((ranked nodes edges).map Prod.fst).Perm nodes := by
  have h := (List.mergeSort_perm (degree_centrality nodes edges)
    fun a b => decide (b.2 ≤ a.2)).map Prod.fst
  rwa [map_fst_centrality] at h

theorem ranked_sorted (nodes : List String) (edges : List EdgeData) :
    (ranked nodes edges).Pairwise fun a b => b.2 ≤ a.2 := by
  have h : (ranked nodes edges).Pairwise fun a b => decide (b.2 ≤ a.2) = true := by
    rw [ranked]
    apply List.sorted_mergeSort
    · intro a b c h1 h2
      simp only [decide_eq_true_eq] at *
      exact le_trans h2 h1
    · intro a b
      rcases le_total a.2 b.2 with h | h <;> simp [h]
  exact h.imp fun hab => of_decide_eq_true hab

/-- C6: the hierarchy is computed from the centrality ranking — a stable
descending sort of the nodes — whose name list is a permutation of the
node set; the first ⌈N/5⌉ ranked nodes (the positions `i` with
`i < N * 0.2`) form core, the next ones up to ⌈3N/5⌉ (`i < N * 0.6`) form
distribution and the rest access, so the three tiers concatenate back to
the ranking: the partition is exhaustive and disjoint (each node of a
duplicate-free node set lands in exactly one tier), and a single-node graph
puts its node in core. -/
theorem c6_hierarchy (nodes : List String) (edges : List EdgeData) :
    (determine_hierarchy nodes edges).core
        = ((ranked nodes edges).map Prod.fst).take ((nodes.length + 4) / 5)
    ∧ (determine_hierarchy nodes edges).distribution
        = (((ranked nodes edges).map Prod.fst).take ((3 * nodes.length + 4) / 5)).drop
            ((nodes.length + 4) / 5)
    ∧ (determine_hierarchy nodes edges).access
        = ((ranked nodes edges).map Prod.fst).drop ((3 * nodes.length + 4) / 5)
    ∧ (determine_hierarchy nodes edges).core ++ ((determine_hierarchy nodes edges).distribution
        ++ (determine_hierarchy nodes edges).access) = (ranked nodes edges).map Prod.fst
    ∧ ((ranked nodes edges).map Prod.fst).Perm nodes
    ∧ (ranked nodes edges).Pairwise (fun a b => b.2 ≤ a.2)
    ∧ (nodes.Nodup → ∀ d ∈ nodes,
        ((determine_hierarchy nodes edges).core
          ++ ((determine_hierarchy nodes edges).distribution
            ++ (determine_hierarchy nodes edges).access)).count d = 1)
    ∧ (nodes.length = 1 → (determine_hierarchy nodes edges).core = nodes) := by
  obtain ⟨hc, hd, ha⟩ :=
    hier_loop_spec (ranked nodes edges).length (ranked nodes edges) 0
  rw [length_ranked] at hc hd ha
  simp only [Nat.sub_zero] at hc hd ha
  have hcore : (determine_hierarchy nodes edges).core
      = ((ranked nodes edges).map Prod.fst).take ((nodes.length + 4) / 5) := by
    rw [determine_hierarchy, length_ranked, hc, List.map_take]
  have hdist : (determine_hierarchy nodes edges).distribution
      = (((ranked nodes edges).map Prod.fst).take ((3 * nodes.length + 4) / 5)).drop
          ((nodes.length + 4) / 5) := by
    rw [determine_hierarchy, length_ranked, hd, List.map_drop, List.map_take]
  have hacc : (determine_hierarchy nodes edges).access
      = ((ranked nodes edges).map Prod.fst).drop ((3 * nodes.length + 4) / 5) := by
    rw [determine_hierarchy, length_ranked, ha, List.map_drop]
  have hk12 : (nodes.length + 4) / 5 ≤ (3 * nodes.length + 4) / 5 := by omega
  have hconcat : (determine_hierarchy nodes edges).core
      ++ ((determine_hierarchy nodes edges).distribution
        ++ (determine_hierarchy nodes edges).access) = (ranked nodes edges).map Prod.fst := by
    rw [hcore, hdist, hacc]
    rw [← List.append_assoc]
    have ht : ((ranked nodes edges).map Prod.fst).take ((nodes.length + 4) / 5)
        = (((ranked nodes edges).map Prod.fst).take ((3 * nodes.length + 4) / 5)).take
            ((nodes.length + 4) / 5) := by
      rw [List.take_take, Nat.min_eq_left hk12]
    rw [ht, List.take_append_drop, List.take_append_drop]
  refine ⟨hcore, hdist, hacc, hconcat, ranked_perm nodes edges, ranked_sorted nodes edges,
    ?_, ?_⟩
  · intro hnd d hd
    rw [hconcat, (ranked_perm nodes edges).count_eq]
    exact List.nodup_iff_count_eq_one.mp hnd d hd
  · intro h1
    obtain ⟨d, hdv⟩ := List.length_eq_one.mp h1
    have hperm2 : ((ranked nodes edges).map Prod.fst).Perm [d] :=
      (ranked_perm nodes edges).trans (by rw [hdv])
    have heq := List.perm_singleton.mp hperm2
    rw [hcore, h1, heq, hdv]
    rfl

/-! ### C8: alternate simple paths -/

theorem adjacency_cons (e : EdgeData) (es : List EdgeData) (d : String) :
    adjacency (e :: es) d
      = if e.dev1 == d then e.dev2 :: adjacency es d
        else if e.dev2 == d then e.dev1 :: adjacency es d
        else adjacency es d := rfl

theorem has_edge_cons (e : EdgeData) (es : List EdgeData) (d1 d2 : String) :
    has_edge (e :: es) d1 d2
      = (same_pair e.dev1 e.dev2 d1 d2 || has_edge es d1 d2) := by
  simp [has_edge]

theorem mem_adjacency {edges : List EdgeData} {d n : String}
    (h : n ∈ adjacency edges d) : has_edge edges d n = true := by
  induction edges with
  | nil => simp [adjacency] at h
  | cons e es ih =>
    rw [adjacency_cons] at h
    rw [has_edge_cons]
    by_cases h1 : (e.dev1 == d) = true
    · rw [if_pos h1] at h
      rcases List.mem_cons.mp h with rfl | h'
      · have hd : e.dev1 = d := by simpa using h1
        rw [Bool.or_eq_true]
        exact Or.inl (by rw [same_pair_iff]; exact Or.inl ⟨hd, rfl⟩)
      · rw [Bool.or_eq_true]
        exact Or.inr (ih h')
    · rw [if_neg h1] at h
      by_cases h2 : (e.dev2 == d) = true
      · rw [if_pos h2] at h
        rcases List.mem_cons.mp h with rfl | h'
        · have hd : e.dev2 = d := by simpa using h2
          rw [Bool.or_eq_true]
          exact Or.inl (by rw [same_pair_iff]; exact Or.inr ⟨rfl, hd⟩)
        · rw [Bool.or_eq_true]
          exact Or.inr (ih h')
      · rw [if_neg h2] at h
        rw [Bool.or_eq_true]
        exact Or.inr (ih h)

theorem spf_sound {edges : List EdgeData} {target : String} :
    ∀ (fuel : Nat) (cur : String) (visited : List String) (p : List String),
      cur ∉ visited → p ∈ simple_paths_from edges target fuel cur visited →
      p.head? = some cur ∧ p.getLast? = some target ∧ p.Nodup
        ∧ (∀ x ∈ p, x ∉ visited)
        ∧ p.Chain' fun a b => has_edge edges a b = true
  | 0, cur, visited, p, hcv, hp => by
    rw [simple_paths_from] at hp
    by_cases ht : (cur == target) = true
    · rw [if_pos ht] at hp
      have : p = [cur] := by simpa using hp
      subst this
      have hct : cur = target := by simpa using ht
      exact ⟨rfl, by simp [hct], by simp, by simpa using hcv, by simp⟩
    · rw [if_neg ht] at hp
      simp at hp
  | fuel + 1, cur, visited, p, hcv, hp => by
    rw [simple_paths_from] at hp
    by_cases ht : (cur == target) = true
    · rw [if_pos ht] at hp
      have : p = [cur] := by simpa using hp
      subst this
      have hct : cur = target := by simpa using ht
      exact ⟨rfl, by simp [hct], by simp, by simpa using hcv, by simp⟩
    · rw [if_neg ht] at hp
      rw [List.mem_flatMap] at hp
      obtain ⟨n, hn, hpn⟩ := hp
      obtain ⟨hnadj, hnvis⟩ := List.mem_filter.mp hn
      have hnvis' : n ∉ cur :: visited := by simpa using hnvis
      obtain ⟨q, hq, rfl⟩ := List.mem_map.mp hpn
      obtain ⟨hqh, hql, hqnd, hqvis, hqch⟩ :=
        spf_sound fuel n (cur :: visited) q hnvis' hq
      have hqne : q ≠ [] := by
        intro hnil
        rw [hnil] at hqh
        simp at hqh
      refine ⟨rfl, ?_, ?_, ?_, ?_⟩
      · obtain ⟨y, ys, rfl⟩ := List.exists_cons_of_ne_nil hqne
        rw [List.getLast?_cons_cons]
        exact hql
      · rw [List.nodup_cons]
        exact ⟨fun hcq => (hqvis cur hcq) (List.mem_cons_self _ _), hqnd⟩
      · intro x hx
        rcases List.mem_cons.mp hx with rfl | hxq
        · exact hcv
        · exact fun hxv => (hqvis x hxq) (List.mem_cons_of_mem _ hxv)
      · rw [List.chain'_cons']
        refine ⟨?_, hqch⟩
        intro y hy
        rw [hqh] at hy
        have hyn : n = y := by simpa using hy
        subst hyn
        exact mem_adjacency hnadj

theorem length_sorted_paths (l : List (List String)) :
    (l.mergeSort fun p q => decide (p.length ≤ q.length)).Pairwise
      fun p q => p.length ≤ q.length := by
  have h : (l.mergeSort fun p q => decide (p.length ≤ q.length)).Pairwise
      fun p q => decide (p.length ≤ q.length) = true := by
    apply List.sorted_mergeSort
    · intro a b c h1 h2
      simp only [decide_eq_true_eq] at *
      exact le_trans h1 h2
    · intro a b
      rcases Nat.le_total a.length b.length with h | h <;> simp [h]
  exact h.imp fun hab => of_decide_eq_true hab

/-- C8: `get_alternative_paths` returns at most `k` paths, each a simple
path between source and target, ordered by non-decreasing length; it
returns the empty sequence (the bare `except` of the source catches the
`networkx` errors; the model is total) whenever no simple path exists, and
in particular when source or target is not a node of the graph. -/
theorem c8_alternative_paths (nodes : List String) (edges : List EdgeData) (s t : String)
    (k : Nat) :
    (get_alternative_paths nodes edges s t k).length ≤ k
    ∧ (get_alternative_paths nodes edges s t k).Pairwise (fun p q => p.length ≤ q.length)
    ∧ (∀ p ∈ get_alternative_paths nodes edges s t k, is_path_between edges s t p)
    ∧ ((∀ p, ¬ is_path_between edges s t p) → get_alternative_paths nodes edges s t k = [])
    ∧ ((nodes.contains s && nodes.contains t) = false →
        get_alternative_paths nodes edges s t k = []) := by
  have hsound : ∀ p ∈ get_alternative_paths nodes edges s t k, is_path_between edges s t p := by
    intro p hp
    rw [get_alternative_paths] at hp
    by_cases hc : (nodes.contains s && nodes.contains t) = true
    · rw [if_pos hc] at hp
      have hp' := List.mem_mergeSort.mp (List.take_subset _ _ hp)
      have hs : s ∉ ([] : List String) := by simp
      obtain ⟨h1, h2, h3, -, h5⟩ := spf_sound nodes.length s [] p hs hp'
      exact ⟨h1, h2, h3, h5⟩
    · rw [if_neg hc] at hp
      simp at hp
  refine ⟨?_, ?_, hsound, ?_, ?_⟩
  · rw [get_alternative_paths]
    split
    · exact List.length_take_le k _
    · simp
  · rw [get_alternative_paths]
    split
    · exact (length_sorted_paths _).sublist (List.take_sublist _ _)
    · simp
  · intro hnone
    cases hr : get_alternative_paths nodes edges s t k with
    | nil => rfl
    | cons p ps =>
      exact absurd (hsound p (by rw [hr]; exact List.mem_cons_self _ _)) (hnone p)
  · intro hc
    rw [get_alternative_paths, hc]
    simp

/-- C8 witness: with node `X` only, source `A` and target `B` are not in the
graph, so the call returns the empty sequence. -/
theorem c8_witness :
    ((["X"] : List String).contains "A" && (["X"] : List String).contains "B") = false
    ∧ get_alternative_paths ["X"] [] "A" "B" 3 = [] := by
  refine ⟨by decide, (c8_alternative_paths ["X"] [] "A" "B" 3).2.2.2.2 (by decide)⟩
